import Mathlib

/-!
Verification of the hfxgas.ca prediction parsing and validation pipeline.

Shallow embedding of src/src/index.js (parseAdjustment, parseRedditPost,
handleWebhook) and src/mcp/server.js (BuckitMCP.post_prediction).

Modelling conventions:
  - JS strings are List Char; concrete inputs are written as string
    literals followed by .data.
  - JS numbers are JSNum: an exact decimal (fin, a mantissa over a
    power of ten), NaN, Infinity or -Infinity.  The source never relies
    on float rounding, so exact decimals are a faithful carrier for the
    arithmetic it performs (division by 100, parseFloat of decimal
    tokens, comparison with 10).
  - Regex matching is hand-compiled to deterministic scanners.  Every
    regex in the source is deterministic in the sense that greedy
    matching with these patterns never needs observable backtracking
    (each repeated class is disjoint from its follow set), so the
    scanners below reproduce exact JS regex semantics for them.
  - The two global-regex exec loops (table rows, dollar amounts) advance
    past each match; the Lean scanners mirror that with a fuel argument
    (fuel = length of the input + 1, which is ample since every step
    consumes at least one character).
  - JavaScript toLowerCase is modelled on the ASCII range (the only
    range the patterns inspect).
-/

/-- JavaScript whitespace (the set matched by the regex class backslash-s
and trimmed by String.prototype.trim). -/
def jsWhitespace (c : Char) : Bool :=
  c.toNat = 32 || c.toNat = 9 || c.toNat = 10 || c.toNat = 13 ||
  c.toNat = 11 || c.toNat = 12 || c.toNat = 0xa0 || c.toNat = 0x1680 ||
  (0x2000 ≤ c.toNat && c.toNat ≤ 0x200a) ||
  c.toNat = 0x2028 || c.toNat = 0x2029 || c.toNat = 0x202f ||
  c.toNat = 0x205f || c.toNat = 0x3000 || c.toNat = 0xfeff

/-- JavaScript String.prototype.trim on a character list. -/
def jsTrim (s : List Char) : List Char :=
  ((s.dropWhile jsWhitespace).reverse.dropWhile jsWhitespace).reverse

/-- ASCII lowering of a character list (models toLowerCase on the
characters the source inspects). -/
def lowers (s : List Char) : List Char := s.map Char.toLower

/-- JS regex word character (the class backslash-w, used by word
boundaries). -/
def isWordChar (c : Char) : Bool := c.isAlpha || c.isDigit || c = '_'

/-- A character the JS dot (without the s flag) does NOT match. -/
def isLineTerm (c : Char) : Bool :=
  c = '\n' || c = '\r' || c.toNat = 0x2028 || c.toNat = 0x2029

/-- Substring containment of a fixed pattern, as regex .test with a
plain literal pattern. -/
def containsSub (p : List Char) : List Char → Bool
  | [] => List.isPrefixOf p []
  | c :: r => List.isPrefixOf p (c :: r) || containsSub p r

/-- One position of the pattern no dot-question change: the literal no,
then at most one non-line-terminator character, then the literal
change. -/
def noChangeHere (s : List Char) : Bool :=
  List.isPrefixOf "no".data s &&
    (List.isPrefixOf "change".data (s.drop 2) ||
      (match s.drop 2 with
        | c :: r => !isLineTerm c && List.isPrefixOf "change".data r
        | [] => false))

/-- The test of the regex no dot-question change anywhere in the
string (used by parseAdjustment and the free-text direction scan). -/
def noChangeTest : List Char → Bool
  | [] => noChangeHere []
  | c :: r => noChangeHere (c :: r) || noChangeTest r

/-- Word-boundary occurrence scan: does w occur in s delimited by
non-word characters or the ends of the string?  Models the regex
boundary-w-boundary test.  prev is the character just before the
current position (none at the start of the string). -/
def testWordAux (w : List Char) (prev : Option Char) (s : List Char) : Bool :=
  ((match prev with
    | none => true
    | some c => !isWordChar c) &&
   List.isPrefixOf w s &&
   (match s.drop w.length with
    | [] => true
    | c :: _ => !isWordChar c)) ||
  (match s with
   | [] => false
   | c :: r => testWordAux w (some c) r)

/-- Word-boundary test over a whole string. -/
def testWord (w : List Char) (s : List Char) : Bool := testWordAux w none s

/-- An exact decimal number: value man divided by ten to the exp.
Every number this program manipulates is a finite decimal (parseFloat
of a decimal token, division by 100, literals 0 and 10), so this
carrier represents the JS float values exactly and all its operations
reduce in the kernel. -/
structure Dec where
  man : ℤ
  exp : ℕ
deriving DecidableEq, Repr

/-- The rational value of a decimal. -/
def Dec.toRat (d : Dec) : ℚ := (d.man : ℚ) / 10 ^ d.exp

/-- Exact division by 100. -/
def Dec.div100 (d : Dec) : Dec := ⟨d.man, d.exp + 2⟩

/-- Decidable test for value greater than ten. -/
def Dec.gt10 (d : Dec) : Bool := 10 * 10 ^ d.exp < d.man

/-- Decidable test for a non-negative value. -/
def Dec.isNonneg (d : Dec) : Bool := 0 ≤ d.man

/-- A JavaScript number: an exact decimal, NaN, Infinity or
-Infinity. -/
inductive JSNum where
  | fin (d : Dec)
  | nan
  | inf
  | ninf
deriving DecidableEq, Repr

/-- JS isNaN on a number. -/
def JSNum.isNaN : JSNum → Bool
  | .nan => true
  | _ => false

/-- Value of a digit string as a natural number. -/
def digitsVal (ds : List Char) : ℕ :=
  ds.foldl (fun a c => a * 10 + (c.toNat - 48)) 0

/-- Model of the JS parseFloat builtin on the inputs reachable in this
program: optional leading whitespace, optional sign, digits, optional
dot and fraction digits, anything after the parsed prefix ignored.
The tokens the source feeds it are matched by the classes digit-or-dot
or digit-dot-digit, so exponents and the literal Infinity are
unreachable and not modelled. -/
def jsParseFloat (s : List Char) : JSNum :=
  let s1 := s.dropWhile jsWhitespace
  let neg : Bool := s1.head? = some '-'
  let s2 := if s1.head? = some '-' || s1.head? = some '+' then s1.tail else s1
  let ip := s2.takeWhile Char.isDigit
  let r := s2.drop ip.length
  let fp :=
    match r with
    | '.' :: t => t.takeWhile Char.isDigit
    | _ => []
  if ip.isEmpty && fp.isEmpty then .nan
  else
    let k := fp.length
    let man : ℤ := (digitsVal ip : ℤ) * 10 ^ k + (digitsVal fp : ℤ)
    .fin ⟨if neg then -man else man, k⟩

/-- Result of parseAdjustment: direction is a JS string or null,
adjustment a JS number or null. -/
structure AdjResult where
  direction : Option String
  adjustment : Option JSNum
deriving DecidableEq, Repr

/-- The anchored match of caret (up or down) whitespace-plus
digit-or-dot-plus: returns the direction word and the greedy
digit-or-dot token. -/
def matchUpDownNum (s : List Char) : Option (String × List Char) :=
  let attempt := fun (w : List Char) (name : String) =>
    if List.isPrefixOf w s then
      let r := s.drop w.length
      let ws := r.takeWhile jsWhitespace
      if ws.isEmpty then none
      else
        let r2 := r.drop ws.length
        let tok := r2.takeWhile (fun c => c.isDigit || c = '.')
        if tok.isEmpty then none else some (name, tok)
    else none
  match attempt ['u', 'p'] "up" with
  | some x => some x
  | none => attempt ['d', 'o', 'w', 'n'] "down"

/-- src/src/index.js parseAdjustment: parse a single adjustment string
like UP 3.6, DOWN 0.7, NO CHANGE. -/
def parseAdjustment (adj : List Char) : AdjResult :=
  let s := lowers (jsTrim adj)
  if noChangeTest s then ⟨some "no-change", some (.fin ⟨0, 0⟩)⟩
  else
    match matchUpDownNum s with
    | some dt => ⟨some dt.1, some (jsParseFloat dt.2)⟩
    | none =>
      if testWord ['u', 'p'] s then ⟨some "up", none⟩
      else if testWord ['d', 'o', 'w', 'n'] s then ⟨some "down", none⟩
      else ⟨none, none⟩

example : parseAdjustment "UP 3.6".data = ⟨some "up", some (.fin ⟨36, 1⟩)⟩ := by decide
example : parseAdjustment "NO CHANGE".data = ⟨some "no-change", some (.fin ⟨0, 0⟩)⟩ := by decide
example : parseAdjustment "NO-CHANGE".data = ⟨some "no-change", some (.fin ⟨0, 0⟩)⟩ := by decide
example : parseAdjustment "up".data = ⟨some "up", none⟩ := by decide
example : parseAdjustment "xyz".data = ⟨none, none⟩ := by decide
example : parseAdjustment "no_change".data = ⟨some "no-change", some (.fin ⟨0, 0⟩)⟩ := by decide

/-- One fuel slot as produced by the Reddit parser. -/
structure FuelSlot where
  direction : Option String
  adjustment : Option JSNum
  price : Option JSNum
deriving DecidableEq, Repr

/-- A matched markdown table row: the lowercased fuel keyword from the
first cell, the raw adjustment cell, and the raw price token. -/
structure TableRow where
  ty : String
  adjRaw : List Char
  priceRaw : List Char
deriving DecidableEq, Repr

/-- Input to parseRedditPost. -/
structure Post where
  title : List Char
  selftext : List Char
deriving DecidableEq, Repr

/-- Output of parseRedditPost. -/
structure ParseResult where
  gas : Option FuelSlot
  diesel : Option FuelSlot
  notes : Option (List Char)
deriving DecidableEq, Repr

/-- Case-insensitive alternation (regular or gas optionally followed by
oline or diesel) at the head of s, in the alternation order of the
regex; returns the canonical lowercase keyword and the rest. -/
def matchFuelKw (s : List Char) : Option (String × List Char) :=
  if List.isPrefixOf "regular".data (lowers (s.take 7)) then some ("regular", s.drop 7)
  else if List.isPrefixOf "gasoline".data (lowers (s.take 8)) then some ("gasoline", s.drop 8)
  else if List.isPrefixOf "gas".data (lowers (s.take 3)) then some ("gas", s.drop 3)
  else if List.isPrefixOf "diesel".data (lowers (s.take 6)) then some ("diesel", s.drop 6)
  else none

/-- Index of the first pipe character. -/
def findPipe : List Char → Option ℕ
  | [] => none
  | '|' :: _ => some 0
  | _ :: r => (findPipe r).map (· + 1)

/-- The middle table cell: whitespace-star, then a non-empty group of
non-pipe characters, then a pipe.  Greedy semantics: the group runs to
the character before the first pipe; the whitespace-star keeps as much
of the leading whitespace as leaves the group non-empty. -/
def matchCell2 (u : List Char) : Option (List Char × List Char) :=
  match findPipe u with
  | none => none
  | some k =>
    if k = 0 then none
    else
      let ws := (u.takeWhile jsWhitespace).length
      let j := min ws (k - 1)
      some ((u.drop j).take (k - j), u.drop (k + 1))

/-- The table-row pattern after its opening pipe: whitespace-star, fuel
keyword, whitespace-star, pipe, middle cell, whitespace-star, a
non-empty digit-or-dot token, whitespace-star, closing pipe.  Returns
the captured row and the text after the match. -/
def rowAfterPipe (r : List Char) : Option (TableRow × List Char) :=
  let r1 := r.dropWhile jsWhitespace
  match matchFuelKw r1 with
  | none => none
  | some tyr =>
    let r3 := tyr.2.dropWhile jsWhitespace
    match r3 with
    | '|' :: r4 =>
      match matchCell2 r4 with
      | none => none
      | some cr =>
        let r6 := cr.2.dropWhile jsWhitespace
        let tok := r6.takeWhile (fun c => c.isDigit || c = '.')
        if tok.isEmpty then none
        else
          match (r6.drop tok.length).dropWhile jsWhitespace with
          | '|' :: rest => some (⟨tyr.1, cr.1, tok⟩, rest)
          | _ => none
    | _ => none

/-- The global exec loop of the table-row regex: scan left to right,
emit each match and resume after it, else advance one character.  The
fuel only bounds the recursion; one unit per character is ample since
every step consumes at least one character. -/
def scanRowsF : ℕ → List Char → List TableRow
  | 0, _ => []
  | _ + 1, [] => []
  | fuel + 1, c :: r =>
    if c = '|' then
      match rowAfterPipe r with
      | some rr => rr.1 :: scanRowsF fuel rr.2
      | none => scanRowsF fuel r
    else scanRowsF fuel r

/-- All table-row matches of the full text, in order. -/
def scanRows (s : List Char) : List TableRow := scanRowsF (s.length + 1) s

/-- Cents-vs-dollars price normalization from parseRedditPost: a value
greater than 10 is treated as cents and divided by 100, anything else
(including NaN, which compares false) is unchanged; Infinity divided
by 100 is still Infinity. -/
def normalizeTablePrice : JSNum → JSNum
  | .fin d => if d.gt10 then .fin d.div100 else .fin d
  | n => n

/-- The fuel slot built from one matched table row. -/
def slotOf (row : TableRow) : FuelSlot :=
  let priceInDollars := normalizeTablePrice (jsParseFloat row.priceRaw)
  let parsed := parseAdjustment row.adjRaw
  ⟨parsed.direction, parsed.adjustment,
    if priceInDollars.isNaN then none else some priceInDollars⟩

/-- The while loop over table matches: each row overwrites the slot its
fuel keyword names (diesel to the diesel slot, anything else to the
gas slot). -/
def tableSlots (rows : List TableRow) : Option FuelSlot × Option FuelSlot :=
  rows.foldl
    (fun gd row =>
      if row.ty = "diesel" then (gd.1, some (slotOf row)) else (some (slotOf row), gd.2))
    (none, none)

/-- The dollar-amount token after a dollar sign: digits-plus, a dot,
then greedily three or else two digits.  Returns the captured group
(without the dollar sign) and the text right after the match. -/
def matchDollarAfter (r : List Char) : Option (List Char × List Char) :=
  let ip := r.takeWhile Char.isDigit
  if ip.isEmpty then none
  else
    match r.drop ip.length with
    | '.' :: r2 =>
      let fp := r2.takeWhile Char.isDigit
      if fp.length < 2 then none
      else
        let n := min fp.length 3
        some (ip ++ '.' :: fp.take n, r2.drop n)
    | _ => none

/-- The global exec loop of the dollar-amount regex, collecting the
parseFloat of each captured group in document order. -/
def scanPricesF : ℕ → List Char → List JSNum
  | 0, _ => []
  | _ + 1, [] => []
  | fuel + 1, c :: r =>
    if c = '$' then
      match matchDollarAfter r with
      | some tr => jsParseFloat tr.1 :: scanPricesF fuel tr.2
      | none => scanPricesF fuel r
    else scanPricesF fuel r

/-- All dollar-amount tokens of the text, in order. -/
def scanPrices (s : List Char) : List JSNum := scanPricesF (s.length + 1) s

/-- Free-text direction inference, in source order: an up-family match
sets up, a down-family match then overwrites with down, a no-change
match finally overwrites with no-change. -/
def freeTextDirection (textLower : List Char) : Option String :=
  let d0 : Option String :=
    if testWord ['u', 'p'] textLower || containsSub "increas".data textLower ||
        containsSub "higher".data textLower || containsSub "rise".data textLower ||
        containsSub "raising".data textLower then some "up" else none
  let d1 : Option String :=
    if testWord ['d', 'o', 'w', 'n'] textLower || containsSub "decreas".data textLower ||
        containsSub "lower".data textLower || containsSub "drop".data textLower ||
        containsSub "fall".data textLower || containsSub "reduc".data textLower
    then some "down" else d0
  if noChangeTest textLower then some "no-change" else d1

/-- The single slot built by the free-text fallback: inferred direction,
null adjustment, and the second dollar amount if two or more were
found, else the only one, else null. -/
def freeTextSlot (fullText : List Char) : FuelSlot :=
  let textLower := lowers fullText
  let prices := scanPrices fullText
  ⟨freeTextDirection textLower, none,
    match prices with
    | _ :: b :: _ => some b
    | [a] => some a
    | [] => none⟩

/-- Split on newline characters, JS String.prototype.split semantics
(an empty string yields one empty piece, a trailing separator yields a
trailing empty piece). -/
def splitNl : List Char → List (List Char)
  | [] => [[]]
  | '\n' :: r => [] :: splitNl r
  | c :: r =>
    match splitNl r with
    | h :: t => (c :: h) :: t
    | [] => [[c]]

/-- Does the line, after trimming, start with a pipe (a table data
row)? -/
def startsTablePipe (l : List Char) : Bool :=
  match jsTrim l with
  | '|' :: _ => true
  | _ => false

/-- Does the line, after trimming, start with colon-dash (a markdown
alignment separator row)? -/
def startsTableSep (l : List Char) : Bool :=
  match jsTrim l with
  | ':' :: '-' :: _ => true
  | _ => false

/-- Notes extraction from parseRedditPost: drop table lines, join the
rest with single spaces, trim, and keep at most 500 characters; an
empty remainder is null. -/
def extractNotes (selftext : List Char) : Option (List Char) :=
  let notesLines :=
    jsTrim (List.intercalate [' ']
      ((splitNl selftext).filter (fun l => !startsTablePipe l && !startsTableSep l)))
  if 0 < notesLines.length then some (notesLines.take 500) else none

/-- src/src/index.js parseRedditPost: markdown-table strategy first,
free-text fallback when it found nothing, then notes extraction. -/
def parseRedditPost (post : Post) : ParseResult :=
  let fullText := post.title ++ ' ' :: post.selftext
  let table := tableSlots (scanRows fullText)
  let slots :=
    if table.1 = none ∧ table.2 = none then
      let slot := freeTextSlot fullText
      if containsSub "diesel".data (lowers fullText) then (table.1, some slot)
      else (some slot, table.2)
    else table
  ⟨slots.1, slots.2, extractNotes post.selftext⟩

example :
    parseRedditPost ⟨"Gas prices".data, "|Regular| UP 3.6 |162.1|\n|Diesel| DOWN 0.7 |154.4|".data⟩ =
      ⟨some ⟨some "up", some (.fin ⟨36, 1⟩), some (.fin ⟨1621, 3⟩)⟩,
       some ⟨some "down", some (.fin ⟨7, 1⟩), some (.fin ⟨1544, 3⟩)⟩,
       none⟩ := by decide

example :
    parseRedditPost ⟨"Gas".data, "Gas: $1.659/L to $1.719/L".data⟩ =
      ⟨some ⟨none, none, some (.fin ⟨1719, 3⟩)⟩, none, some "Gas: $1.659/L to $1.719/L".data⟩ := by
  decide

example :
    parseRedditPost ⟨"diesel going up".data, "".data⟩ =
      ⟨none, some ⟨some "up", none, none⟩, none⟩ := by decide

example :
    parseRedditPost ⟨"no change".data, "".data⟩ =
      ⟨some ⟨some "no-change", none, none⟩, none, none⟩ := by decide

/-- A JS value in a scalar field position of a submission body:
absent (undefined), null, a number, a string, or a boolean. -/
inductive JSField where
  | undef
  | jnull
  | num (n : JSNum)
  | str (s : String)
  | bool (b : Bool)
deriving DecidableEq, Repr

/-- The JS nullish coalescing x double-question null. -/
def coalesceNull : JSField → JSField
  | .undef => .jnull
  | .jnull => .jnull
  | v => v

/-- The value of body.gas or body.diesel: absent, null, or an object
with direction, adjustment and price fields.  (A truthy non-object
value in these positions is outside the modelled input space; JSON
bodies produce only objects or null here.) -/
structure SlotObj where
  direction : JSField
  adjustment : JSField
  price : JSField
deriving DecidableEq, Repr

inductive SlotVal where
  | undef
  | jnull
  | obj (s : SlotObj)
deriving DecidableEq, Repr

/-- Is the gas or diesel field distinct from undefined? -/
def SlotVal.isDefined : SlotVal → Bool
  | .undef => false
  | _ => true

/-- A parsed webhook JSON body.  Absent fields are undef; notes is
modelled as absent-or-null (none) or a string (JSON bodies with
non-string notes would be coerced by String() and are outside the
modelled input space; no claim depends on them). -/
structure WebhookBody where
  gas : SlotVal
  diesel : SlotVal
  direction : JSField
  predicted_price : JSField
  current_price : JSField
  fuel_type : JSField
  notes : Option String
deriving DecidableEq, Repr

/-- A webhook request: whether the URL carries a secret query
parameter, the authorization header (none when absent), and the parsed
JSON body (none when request.json() throws). -/
structure WebhookRequest where
  hasSecretParam : Bool
  authHeader : Option String
  body : Option WebhookBody
deriving DecidableEq, Repr

/-- A fuel slot as persisted by the webhook: the validated direction
value and the passed-through adjustment and price (null when the field
was absent or null). -/
structure WSlot where
  direction : JSField
  adjustment : JSField
  price : JSField
deriving DecidableEq, Repr

/-- The prediction record persisted by the webhook (updated_at and
post_id carry only provenance and a timestamp and are omitted from the
model). -/
structure WebhookPrediction where
  gas : Option WSlot
  diesel : Option WSlot
  notes : Option String
  source : String
deriving DecidableEq, Repr

/-- Outcome of a webhook call: an HTTP error status with its message,
or the persisted prediction. -/
inductive WebhookResult where
  | err (status : ℕ) (msg : String)
  | ok (p : WebhookPrediction)
deriving DecidableEq, Repr

def WebhookResult.isOk : WebhookResult → Bool
  | .ok _ => true
  | .err _ _ => false

def VALID_DIRECTIONS : List String := ["up", "down", "no-change"]

/-- Is this JS value one of the members of VALID_DIRECTIONS (Array
includes: non-strings never equal a string)? -/
def dirOk (d : JSField) : Bool :=
  match d with
  | .str s => VALID_DIRECTIONS.contains s
  | _ => false

/-- The price check of validateFuelSlot: present, non-null, and either
not a number or NaN. -/
def priceBad : JSField → Bool
  | .undef => false
  | .jnull => false
  | .num n => n.isNaN
  | _ => true

/-- validateFuelSlot from handleWebhook: a falsy slot passes (absent),
otherwise the direction must be a valid direction string and the
price, if present, a non-NaN number. -/
def validateFuelSlot (slot : SlotVal) (name : String) : Option String :=
  match slot with
  | .undef => none
  | .jnull => none
  | .obj s =>
    if !dirOk s.direction then
      some (name ++ ".direction must be one of: up, down, no-change")
    else if priceBad s.price then
      some (name ++ ".price must be a number if provided")
    else none

/-- The slot the webhook persists for a truthy gas or diesel field. -/
def buildSlot : SlotVal → Option WSlot
  | .obj s => some ⟨s.direction, coalesceNull s.adjustment, coalesceNull s.price⟩
  | _ => none

/-- Is the value a valid fuel_type (Array includes on gas, diesel)? -/
def fuelTypeOk : JSField → Bool
  | .str s => s = "gas" || s = "diesel"
  | _ => false

/-- The required-number check on legacy predicted_price: not a number,
or NaN. -/
def predictedPriceBad : JSField → Bool
  | .num n => n.isNaN
  | _ => true

/-- The optional-number check on legacy current_price: present and
(not a number or NaN). -/
def currentPriceBad : JSField → Bool
  | .undef => false
  | .num n => n.isNaN
  | _ => true

/-- The legacy destructuring default: fuel_type falls back to the
string gas exactly when the field is undefined (null does not trigger
the default). -/
def legacyFuelType (body : WebhookBody) : JSField :=
  match body.fuel_type with
  | .undef => .str "gas"
  | v => v

/-- Notes normalization: a truthy notes value is truncated to 500
characters, anything else becomes null. -/
def normalizeNotes : Option String → Option String
  | some s => if s = "" then none else some (List.asString (s.data.take 500))
  | none => none

/-- The bearer token of a webhook request: the authorization header
after the Bearer prefix, else the empty string. -/
def webhookToken (req : WebhookRequest) : String :=
  let authHeader := req.authHeader.getD ""
  if List.isPrefixOf "Bearer ".data authHeader.data then
    List.asString (authHeader.data.drop 7)
  else ""

/-- src/src/index.js handleWebhook: reject a secret query parameter
with 400, then bearer-token auth with 401, then JSON parsing with 400,
then validate and persist one of the two wire shapes. -/
def handleWebhook (req : WebhookRequest) (webhookSecret : String) : WebhookResult :=
  if req.hasSecretParam then
    .err 400 "Use Authorization: Bearer header, not ?secret= query param"
  else
    let token := webhookToken req
    if token = "" || token ≠ webhookSecret then .err 401 "Unauthorized"
    else
      match req.body with
      | none => .err 400 "Invalid JSON"
      | some body =>
        if body.gas.isDefined || body.diesel.isDefined then
          match validateFuelSlot body.gas "gas" with
          | some e => .err 400 e
          | none =>
            match validateFuelSlot body.diesel "diesel" with
            | some e => .err 400 e
            | none =>
              .ok ⟨buildSlot body.gas, buildSlot body.diesel,
                   normalizeNotes body.notes, "webhook"⟩
        else
          let fuel_type := legacyFuelType body
          if !dirOk body.direction then
            .err 400 "Invalid direction — must be \"up\", \"down\", or \"no-change\""
          else if !fuelTypeOk fuel_type then
            .err 400 "Invalid fuel_type — must be \"gas\" or \"diesel\""
          else if predictedPriceBad body.predicted_price then
            .err 400 "predicted_price must be a number"
          else if currentPriceBad body.current_price then
            .err 400 "current_price must be a number if provided"
          else
            let slot : WSlot := ⟨body.direction, .jnull, body.predicted_price⟩
            if fuel_type = .str "diesel" then
              .ok ⟨none, some slot, normalizeNotes body.notes, "webhook"⟩
            else
              .ok ⟨some slot, none, normalizeNotes body.notes, "webhook"⟩

/-- Arguments of the MCP post_prediction tool call. -/
structure McpArgs where
  direction : JSField
  predicted_price : JSField
  current_price : JSField
  fuel_type : JSField
  notes : Option String
  secret : Option String
deriving DecidableEq, Repr

/-- The flat prediction record persisted by the MCP tool (updated_at
and post_id omitted as in the webhook model). -/
structure McpPrediction where
  direction : JSField
  currentPrice : JSField
  predictedPrice : JSField
  fuelType : JSField
  notes : Option String
  source : String
deriving DecidableEq, Repr

inductive McpResult where
  | err (status : ℕ) (msg : String)
  | ok (p : McpPrediction)
deriving DecidableEq, Repr

def McpResult.isOk : McpResult → Bool
  | .ok _ => true
  | .err _ _ => false

/-- src/mcp/server.js BuckitMCP.post_prediction: secret check, then a
direction check against up and down only, then fuel_type, then
predicted_price; persists a flat record (current_price is never
validated, only null-coalesced). -/
def post_prediction (args : McpArgs) (webhookSecret : String) : McpResult :=
  let secretOk :=
    match args.secret with
    | none => false
    | some s => s ≠ "" && s = webhookSecret
  if !secretOk then .err 401 "Unauthorized"
  else if !(match args.direction with
            | .str s => s = "up" || s = "down"
            | _ => false) then .err 400 "Invalid direction"
  else if !fuelTypeOk (match args.fuel_type with
                       | .undef => JSField.str "gas"
                       | v => v) then .err 400 "Invalid fuel_type"
  else if predictedPriceBad args.predicted_price then
    .err 400 "predicted_price must be a number"
  else
    .ok ⟨args.direction, coalesceNull args.current_price, args.predicted_price,
         (match args.fuel_type with
          | .undef => JSField.str "gas"
          | v => v),
         normalizeNotes args.notes, "mcp"⟩

example :
    handleWebhook
      ⟨false, some "Bearer s",
        some ⟨.undef, .undef, .str "no-change", .num (.fin ⟨15, 1⟩), .undef, .undef, none⟩⟩ "s" =
      .ok ⟨some ⟨.str "no-change", .jnull, .num (.fin ⟨15, 1⟩)⟩, none, none, "webhook"⟩ := by
  decide

example :
    post_prediction ⟨.str "no-change", .num (.fin ⟨15, 1⟩), .undef, .undef, none, some "s"⟩ "s" =
      .err 400 "Invalid direction" := by decide

/-- The non-negativity half of the FuelSlot adjustment invariant on a
JS number (NaN, infinities and null carry no sign). -/
def adjNonneg : Option JSNum → Bool
  | some (.fin d) => d.isNonneg
  | _ => true

/-- The FuelSlot invariant of the spec on an adjustment-parser result:
the adjustment is never negative, and a no-change direction comes with
adjustment zero, not null. -/
def adjInvariant (a : AdjResult) : Bool :=
  adjNonneg a.adjustment &&
    (!decide (a.direction = some "no-change") || decide (a.adjustment = some (.fin ⟨0, 0⟩)))

/-- The FuelSlot invariant of the spec on a parsed fuel slot. -/
def slotInvariant (s : FuelSlot) : Bool :=
  adjNonneg s.adjustment &&
    (!decide (s.direction = some "no-change") || decide (s.adjustment = some (.fin ⟨0, 0⟩)))

/-- The no-change pattern exactly as claim C3 words it: the two words
separated by a space or a hyphen, anywhere in the phrase. -/
def claimNoChange (t : List Char) : Bool :=
  containsSub "no change".data t || containsSub "no-change".data t

/-- The adjustment parser exactly as claim C3 words it, differing from
the source only in the no-change pattern. -/
def claimAdjustment (adj : List Char) : AdjResult :=
  let s := lowers (jsTrim adj)
  if claimNoChange s then ⟨some "no-change", some (.fin ⟨0, 0⟩)⟩
  else
    match matchUpDownNum s with
    | some dt => ⟨some dt.1, some (jsParseFloat dt.2)⟩
    | none =>
      if testWord ['u', 'p'] s then ⟨some "up", none⟩
      else if testWord ['d', 'o', 'w', 'n'] s then ⟨some "down", none⟩
      else ⟨none, none⟩

/-- Declarative form of the no-change pattern the source actually
implements: at some position, the word no, then either directly the
word change, or one arbitrary non-line-terminator character and then
the word change. -/
def wildNoChange (t : List Char) : Bool :=
  t.tails.any fun u =>
    List.isPrefixOf "nochange".data u ||
      (List.isPrefixOf "no".data u &&
        (match u.drop 2 with
          | c :: r => !isLineTerm c && List.isPrefixOf "change".data r
          | [] => false))

/-- The adjustment parser as amended claim C3 words it: the no-change
separator may be any single non-line-terminator character or nothing
at all. -/
def claimAdjustmentAmended (adj : List Char) : AdjResult :=
  let s := lowers (jsTrim adj)
  if wildNoChange s then ⟨some "no-change", some (.fin ⟨0, 0⟩)⟩
  else
    match matchUpDownNum s with
    | some dt => ⟨some dt.1, some (jsParseFloat dt.2)⟩
    | none =>
      if testWord ['u', 'p'] s then ⟨some "up", none⟩
      else if testWord ['d', 'o', 'w', 'n'] s then ⟨some "down", none⟩
      else ⟨none, none⟩

/-- Join a list of lines with single spaces (claim C7 wording). -/
def joinSpace : List (List Char) → List Char
  | [] => []
  | [l] => l
  | l :: ls => l ++ ' ' :: joinSpace ls

/-- Notes extraction exactly as claim C7 words it: drop table lines,
join with single spaces, trim, truncate to 500, empty becomes null. -/
def claimNotes (body : List Char) : Option (List Char) :=
  let remaining :=
    (splitNl body).filter fun l => !(startsTablePipe l || startsTableSep l)
  let note := jsTrim (joinSpace remaining)
  if note = [] then none else some (note.take 500)

/-- An authenticated webhook request carrying a legacy body with the
given direction string and predicted price (all other fields
absent). -/
def legacyDirReq (d : String) (n : JSNum) : WebhookRequest :=
  ⟨false, some "Bearer s",
    some ⟨.undef, .undef, .str d, .num n, .undef, .undef, none⟩⟩

/-- The MCP tool arguments matching legacyDirReq, with the correct
secret. -/
def mcpDirArgs (d : String) (n : JSNum) : McpArgs :=
  ⟨.str d, .num n, .undef, .undef, none, some "s"⟩

/-- An authenticated legacy webhook body with direction up and the
given predicted_price value. -/
def legacyPriceReq (p : JSField) : WebhookRequest :=
  ⟨false, some "Bearer s", some ⟨.undef, .undef, .str "up", p, .undef, .undef, none⟩⟩

/-- An authenticated legacy webhook body with a valid direction and
predicted_price and the given current_price value. -/
def currentPriceReq (p : JSField) : WebhookRequest :=
  ⟨false, some "Bearer s",
    some ⟨.undef, .undef, .str "up", .num (.fin ⟨15, 1⟩), p, .undef, none⟩⟩

/-- An authenticated dual-fuel webhook body whose gas slot has a valid
direction and the given price value. -/
def dualPriceReq (p : JSField) : WebhookRequest :=
  ⟨false, some "Bearer s",
    some ⟨.obj ⟨.str "up", .undef, p⟩, .undef, .undef, .undef, .undef, .undef, none⟩⟩

theorem Dec.gt10_iff (d : Dec) : d.gt10 = true ↔ 10 < d.toRat := by
  have h0 : (0 : ℚ) < 10 ^ d.exp := by positivity
  rw [Dec.gt10, Dec.toRat, decide_eq_true_eq, lt_div_iff₀ h0]
  norm_cast

theorem Dec.div100_toRat (d : Dec) : d.div100.toRat = d.toRat / 100 := by
  simp only [Dec.div100, Dec.toRat, pow_add]
  ring

/-- Claim C6: the table-price normalization divides a raw value by 100
exactly when it exceeds 10 and leaves it unchanged otherwise (the
boundary value 10 falls into the unchanged branch). -/
theorem spec_C6 (d : Dec) :
    (10 < d.toRat →
      normalizeTablePrice (.fin d) = .fin d.div100 ∧ d.div100.toRat = d.toRat / 100) ∧
    (d.toRat ≤ 10 → normalizeTablePrice (.fin d) = .fin d) := by
  constructor
  · intro h
    have hb : d.gt10 = true := (Dec.gt10_iff d).mpr h
    exact ⟨by simp [normalizeTablePrice, hb], Dec.div100_toRat d⟩
  · intro h
    have hb : d.gt10 = false := by
      rw [← Bool.not_eq_true, Dec.gt10_iff]
      exact not_lt.mpr h
    simp [normalizeTablePrice, hb]

theorem spec_C6_witness :
    (10 < (⟨1621, 1⟩ : Dec).toRat ∧
      normalizeTablePrice (.fin ⟨1621, 1⟩) = .fin ⟨1621, 3⟩ ∧
      (⟨1621, 3⟩ : Dec).toRat = (⟨1621, 1⟩ : Dec).toRat / 100) ∧
    ((⟨10, 0⟩ : Dec).toRat ≤ 10 ∧ normalizeTablePrice (.fin ⟨10, 0⟩) = .fin ⟨10, 0⟩) := by
  have h1 : 10 < (⟨1621, 1⟩ : Dec).toRat := by norm_num [Dec.toRat]
  have h2 : (⟨10, 0⟩ : Dec).toRat ≤ 10 := by norm_num [Dec.toRat]
  exact ⟨⟨h1, ((spec_C6 ⟨1621, 1⟩).1 h1).1, ((spec_C6 ⟨1621, 1⟩).1 h1).2⟩,
         h2, (spec_C6 ⟨10, 0⟩).2 h2⟩

/-- Claim C10: the parser never returns both fuel slots null: when the
table strategy finds nothing, the free-text fallback unconditionally
fills exactly one of the two slots. -/
theorem spec_C10 (post : Post) :
    (parseRedditPost post).gas ≠ none ∨ (parseRedditPost post).diesel ≠ none := by
  unfold parseRedditPost
  by_cases h :
      (tableSlots (scanRows (post.title ++ ' ' :: post.selftext))).1 = none ∧
      (tableSlots (scanRows (post.title ++ ' ' :: post.selftext))).2 = none
  · simp only [h, if_true, if_pos]
    by_cases hd : containsSub "diesel".data (lowers (post.title ++ ' ' :: post.selftext)) = true
    · simp [hd]
    · simp [hd]
  · simp only [h, if_neg, if_false]
    tauto

/-- Claim C1, counterexample: the legacy payload direction no-change
with predicted_price 1.5, identically authenticated, is accepted by
the webhook (and translated to a gas slot) but rejected with 400 by
the MCP post_prediction tool, so the two entry points do not validate
by the same rules. -/
theorem spec_C1_cex :
    handleWebhook (legacyDirReq "no-change" (.fin ⟨15, 1⟩)) "s" =
      .ok ⟨some ⟨.str "no-change", .jnull, .num (.fin ⟨15, 1⟩)⟩, none, none, "webhook"⟩ ∧
    post_prediction (mcpDirArgs "no-change" (.fin ⟨15, 1⟩)) "s" =
      .err 400 "Invalid direction" := by decide

theorem handleWebhook_legacyDirReq (d : String) (n : JSNum) :
    handleWebhook (legacyDirReq d n) "s" =
      if !dirOk (.str d) then
        .err 400 "Invalid direction — must be \"up\", \"down\", or \"no-change\""
      else if predictedPriceBad (.num n) then .err 400 "predicted_price must be a number"
      else .ok ⟨some ⟨.str d, .jnull, .num n⟩, none, none, "webhook"⟩ := rfl

theorem post_prediction_mcpDirArgs (d : String) (n : JSNum) :
    post_prediction (mcpDirArgs d n) "s" =
      if !(d = "up" || d = "down") then .err 400 "Invalid direction"
      else if predictedPriceBad (.num n) then .err 400 "predicted_price must be a number"
      else .ok ⟨.str d, .jnull, .num n, .str "gas", none, "mcp"⟩ := rfl

/-- Claim C1, amended: webhook submissions do converge to the gas and
diesel slot structure, but the MCP post_prediction tool validates
independently: on the same authenticated legacy payload it accepts
only the directions up and down (no-change is rejected with 400) and
persists a flat direction, currentPrice, predictedPrice, fuelType
record rather than the slot structure. -/
theorem spec_C1_amended (d : String) (n : JSNum) (hn : n.isNaN = false) :
    ((handleWebhook (legacyDirReq d n) "s").isOk = VALID_DIRECTIONS.contains d ∧
      (VALID_DIRECTIONS.contains d = true →
        handleWebhook (legacyDirReq d n) "s" =
          .ok ⟨some ⟨.str d, .jnull, .num n⟩, none, none, "webhook"⟩)) ∧
    ((post_prediction (mcpDirArgs d n) "s").isOk = (d = "up" || d = "down") ∧
      ((d = "up" || d = "down") = true →
        post_prediction (mcpDirArgs d n) "s" =
          .ok ⟨.str d, .jnull, .num n, .str "gas", none, "mcp"⟩)) := by
  have hd : dirOk (.str d) = VALID_DIRECTIONS.contains d := rfl
  have hp : predictedPriceBad (.num n) = false := hn
  constructor
  · rw [handleWebhook_legacyDirReq, hd, hp]
    cases hb : VALID_DIRECTIONS.contains d <;> simp [WebhookResult.isOk]
  · rw [post_prediction_mcpDirArgs, hp]
    cases hb : (d = "up" || d = "down") <;> simp_all [McpResult.isOk]

theorem spec_C1_amended_witness :
    ((JSNum.fin ⟨15, 1⟩).isNaN = false ∧
      (handleWebhook (legacyDirReq "no-change" (.fin ⟨15, 1⟩)) "s").isOk = true ∧
      (post_prediction (mcpDirArgs "no-change" (.fin ⟨15, 1⟩)) "s").isOk = false) ∧
    (handleWebhook (legacyDirReq "up" (.fin ⟨15, 1⟩)) "s" =
        .ok ⟨some ⟨.str "up", .jnull, .num (.fin ⟨15, 1⟩)⟩, none, none, "webhook"⟩ ∧
      post_prediction (mcpDirArgs "up" (.fin ⟨15, 1⟩)) "s" =
        .ok ⟨.str "up", .jnull, .num (.fin ⟨15, 1⟩), .str "gas", none, "mcp"⟩) := by
  refine ⟨⟨rfl, ?_, ?_⟩, ?_, ?_⟩
  · rw [(spec_C1_amended "no-change" (.fin ⟨15, 1⟩) rfl).1.1]; decide
  · rw [(spec_C1_amended "no-change" (.fin ⟨15, 1⟩) rfl).2.1]; decide
  · exact (spec_C1_amended "up" (.fin ⟨15, 1⟩) rfl).1.2 (by decide)
  · exact (spec_C1_amended "up" (.fin ⟨15, 1⟩) rfl).2.2 (by decide)

/-- Claim C2, counterexample: a webhook request whose URL carries a
secret query parameter, whose bearer token is wrong, and whose body
has an invalid direction is rejected with 400 (the query-parameter
rule), not 401, so a wrong-token request does not always receive
401. -/
theorem spec_C2_cex :
    handleWebhook
        ⟨true, some "Bearer wrong",
          some ⟨.obj ⟨.str "sideways", .undef, .undef⟩, .undef, .undef, .undef, .undef,
            .undef, none⟩⟩ "s" =
      .err 400 "Use Authorization: Bearer header, not ?secret= query param" := by decide

/-- Claim C2, amended: on requests without a secret query parameter
(those are rejected with 400 before anything else), authentication is
checked before any schema validation: a wrong or missing bearer token
yields 401 whatever the body, and a correctly authenticated body whose
gas direction is sideways yields 400 with the field-specific
message. -/
theorem spec_C2_amended (req : WebhookRequest) (secret : String)
    (hq : req.hasSecretParam = false) :
    ((webhookToken req = "" ∨ webhookToken req ≠ secret) →
      handleWebhook req secret = .err 401 "Unauthorized") ∧
    (∀ (body : WebhookBody) (adjv pv : JSField),
      webhookToken req ≠ "" → webhookToken req = secret →
      req.body = some body → body.gas = .obj ⟨.str "sideways", adjv, pv⟩ →
      handleWebhook req secret =
        .err 400 "gas.direction must be one of: up, down, no-change") := by
  constructor
  · intro h
    unfold handleWebhook
    rw [if_neg (by simp [hq])]
    rw [if_pos]
    rcases h with h | h <;> simp [h]
  · intro body adjv pv ht hs hb hg
    unfold handleWebhook
    rw [if_neg (by simp [hq])]
    have hsne : secret ≠ "" := fun h => ht (hs.trans h)
    rw [if_neg (by simp [ht, hs, hsne])]
    rw [hb]
    have hgd : body.gas.isDefined = true := by rw [hg]; rfl
    simp only [hgd, Bool.true_or, if_pos]
    have hv : validateFuelSlot body.gas "gas" =
        some "gas.direction must be one of: up, down, no-change" := by
      rw [hg]
      rfl
    rw [hv]

theorem spec_C2_amended_witness :
    ((false = false ∧
        (webhookToken ⟨false, some "Bearer wrong", none⟩ = "" ∨
          webhookToken ⟨false, some "Bearer wrong", none⟩ ≠ "s") ∧
        handleWebhook ⟨false, some "Bearer wrong", none⟩ "s" = .err 401 "Unauthorized") ∧
      (handleWebhook
          ⟨false, some "Bearer s",
            some ⟨.obj ⟨.str "sideways", .undef, .undef⟩, .undef, .undef, .undef, .undef,
              .undef, none⟩⟩ "s" =
        .err 400 "gas.direction must be one of: up, down, no-change")) := by
  refine ⟨⟨rfl, Or.inr (by decide), ?_⟩, ?_⟩
  · exact (spec_C2_amended ⟨false, some "Bearer wrong", none⟩ "s" rfl).1
      (Or.inr (by decide))
  · exact (spec_C2_amended
      ⟨false, some "Bearer s",
        some ⟨.obj ⟨.str "sideways", .undef, .undef⟩, .undef, .undef, .undef, .undef,
          .undef, none⟩⟩ "s" rfl).2
      ⟨.obj ⟨.str "sideways", .undef, .undef⟩, .undef, .undef, .undef, .undef, .undef, none⟩
      .undef .undef (by decide) (by decide) rfl rfl

/-- Claim C9, counterexample: an infinite predicted_price (reachable
through JSON input such as the numeral 1e999) is accepted by the
webhook in both wire shapes, so non-finite prices are not rejected;
only non-numbers and NaN are. -/
theorem spec_C9_cex :
    handleWebhook (legacyPriceReq (.num .inf)) "s" =
      .ok ⟨some ⟨.str "up", .jnull, .num .inf⟩, none, none, "webhook"⟩ ∧
    handleWebhook (dualPriceReq (.num .inf)) "s" =
      .ok ⟨some ⟨.str "up", .jnull, .num .inf⟩, none, none, "webhook"⟩ := by decide

/-- Claim C9, amended: for every authenticated webhook submission, a
price field that is not a number or is NaN is rejected with a
400-status error and its field-specific message, in all four price
positions: the gas and diesel slot prices of the dual-fuel shape and
predicted_price and current_price of the legacy shape; a submission
whose slots validate is accepted.  The bad-price predicates hold
exactly off the non-NaN numbers (plus absent or null where the field
is optional), so finiteness is never checked and Infinity passes. -/
theorem spec_C9_amended (req : WebhookRequest) (secret : String) (body : WebhookBody)
    (hq : req.hasSecretParam = false)
    (ht : webhookToken req ≠ "") (hs : webhookToken req = secret)
    (hb : req.body = some body) :
    (∀ s : SlotObj, body.gas = .obj s → dirOk s.direction = true →
      priceBad s.price = true →
      handleWebhook req secret = .err 400 "gas.price must be a number if provided") ∧
    (∀ s : SlotObj, body.diesel = .obj s → validateFuelSlot body.gas "gas" = none →
      dirOk s.direction = true → priceBad s.price = true →
      handleWebhook req secret = .err 400 "diesel.price must be a number if provided") ∧
    (body.gas = .undef → body.diesel = .undef → dirOk body.direction = true →
      fuelTypeOk (legacyFuelType body) = true →
      predictedPriceBad body.predicted_price = true →
      handleWebhook req secret = .err 400 "predicted_price must be a number") ∧
    (body.gas = .undef → body.diesel = .undef → dirOk body.direction = true →
      fuelTypeOk (legacyFuelType body) = true →
      predictedPriceBad body.predicted_price = false →
      currentPriceBad body.current_price = true →
      handleWebhook req secret = .err 400 "current_price must be a number if provided") ∧
    ((body.gas.isDefined || body.diesel.isDefined) = true →
      validateFuelSlot body.gas "gas" = none → validateFuelSlot body.diesel "diesel" = none →
      handleWebhook req secret =
        .ok ⟨buildSlot body.gas, buildSlot body.diesel, normalizeNotes body.notes, "webhook"⟩) ∧
    (∀ p : JSField, priceBad p = false ↔
      p = .undef ∨ p = .jnull ∨ ∃ n, p = .num n ∧ n.isNaN = false) ∧
    (∀ p : JSField, predictedPriceBad p = false ↔ ∃ n, p = .num n ∧ n.isNaN = false) ∧
    (∀ p : JSField, currentPriceBad p = false ↔
      p = .undef ∨ ∃ n, p = .num n ∧ n.isNaN = false) := by
  have hsne : secret ≠ "" := fun h => ht (hs.trans h)
  have hauth : ∀ X : WebhookResult,
      (match req.body with
        | none => WebhookResult.err 400 "Invalid JSON"
        | some b =>
          if b.gas.isDefined || b.diesel.isDefined then
            match validateFuelSlot b.gas "gas" with
            | some e => WebhookResult.err 400 e
            | none =>
              match validateFuelSlot b.diesel "diesel" with
              | some e => WebhookResult.err 400 e
              | none =>
                WebhookResult.ok ⟨buildSlot b.gas, buildSlot b.diesel,
                  normalizeNotes b.notes, "webhook"⟩
          else
            if !dirOk b.direction then
              WebhookResult.err 400
                "Invalid direction — must be \"up\", \"down\", or \"no-change\""
            else if !fuelTypeOk (legacyFuelType b) then
              WebhookResult.err 400 "Invalid fuel_type — must be \"gas\" or \"diesel\""
            else if predictedPriceBad b.predicted_price then
              WebhookResult.err 400 "predicted_price must be a number"
            else if currentPriceBad b.current_price then
              WebhookResult.err 400 "current_price must be a number if provided"
            else
              let slot : WSlot := ⟨b.direction, .jnull, b.predicted_price⟩
              if legacyFuelType b = .str "diesel" then
                WebhookResult.ok ⟨none, some slot, normalizeNotes b.notes, "webhook"⟩
              else
                WebhookResult.ok ⟨some slot, none, normalizeNotes b.notes, "webhook"⟩) = X →
      handleWebhook req secret = X := by
    intro X hX
    unfold handleWebhook
    rw [if_neg (by simp [hq])]
    rw [if_neg (by simp [ht, hs, hsne])]
    exact hX
  refine ⟨?_, ?_, ?_, ?_, ?_, ?_, ?_, ?_⟩
  · intro s hg hdir hpb
    apply hauth
    rw [hb]
    have hgd : body.gas.isDefined = true := by rw [hg]; rfl
    simp only [hgd, Bool.true_or, if_pos]
    have hv : validateFuelSlot body.gas "gas" =
        some "gas.price must be a number if provided" := by
      rw [hg]
      simp only [validateFuelSlot, hdir, hpb, Bool.not_true, Bool.false_eq_true, if_false,
        if_true]
      rfl
    rw [hv]
  · intro s hd hvg hdir hpb
    apply hauth
    rw [hb]
    have hdd : body.diesel.isDefined = true := by rw [hd]; rfl
    simp only [hdd, Bool.or_true, if_pos]
    rw [hvg]
    have hv : validateFuelSlot body.diesel "diesel" =
        some "diesel.price must be a number if provided" := by
      rw [hd]
      simp only [validateFuelSlot, hdir, hpb, Bool.not_true, Bool.false_eq_true, if_false,
        if_true]
      rfl
    rw [hv]
  · intro hg hd hdir hft hpred
    apply hauth
    rw [hb]
    have hgd : body.gas.isDefined = false := by rw [hg]; rfl
    have hdd : body.diesel.isDefined = false := by rw [hd]; rfl
    simp only [hgd, hdd, Bool.or_self, Bool.false_eq_true, if_false, hdir, hft, hpred,
      Bool.not_true, if_true]
  · intro hg hd hdir hft hpred hcur
    apply hauth
    rw [hb]
    have hgd : body.gas.isDefined = false := by rw [hg]; rfl
    have hdd : body.diesel.isDefined = false := by rw [hd]; rfl
    simp only [hgd, hdd, Bool.or_self, Bool.false_eq_true, if_false, hdir, hft, hpred, hcur,
      Bool.not_true, if_true]
  · intro hfmt hvg hvd
    apply hauth
    rw [hb]
    simp only [hfmt, hvg, hvd, if_true]
  · intro p
    cases p <;> simp [priceBad]
  · intro p
    cases p <;> simp [predictedPriceBad]
  · intro p
    cases p <;> simp [currentPriceBad]

theorem spec_C9_amended_witness :
    handleWebhook
        ⟨false, some "Bearer s",
          some ⟨.obj ⟨.str "up", .undef, .num .nan⟩, .undef, .undef, .undef, .undef,
            .undef, none⟩⟩ "s" =
      .err 400 "gas.price must be a number if provided" ∧
    handleWebhook
        ⟨false, some "Bearer s",
          some ⟨.undef, .obj ⟨.str "down", .undef, .str "lots"⟩, .undef, .undef, .undef,
            .undef, none⟩⟩ "s" =
      .err 400 "diesel.price must be a number if provided" ∧
    handleWebhook
        ⟨false, some "Bearer s",
          some ⟨.undef, .undef, .str "up", .str "lots", .undef, .undef, none⟩⟩ "s" =
      .err 400 "predicted_price must be a number" ∧
    handleWebhook
        ⟨false, some "Bearer s",
          some ⟨.undef, .undef, .str "up", .num (.fin ⟨15, 1⟩), .jnull, .undef, none⟩⟩ "s" =
      .err 400 "current_price must be a number if provided" ∧
    priceBad (.num .inf) = false ∧ predictedPriceBad (.num .inf) = false := by
  refine ⟨?_, ?_, ?_, ?_, ?_, ?_⟩
  · exact (spec_C9_amended
      ⟨false, some "Bearer s",
        some ⟨.obj ⟨.str "up", .undef, .num .nan⟩, .undef, .undef, .undef, .undef, .undef,
          none⟩⟩ "s"
      ⟨.obj ⟨.str "up", .undef, .num .nan⟩, .undef, .undef, .undef, .undef, .undef, none⟩
      rfl (by decide) rfl rfl).1
      ⟨.str "up", .undef, .num .nan⟩ rfl (by decide) rfl
  · exact (spec_C9_amended
      ⟨false, some "Bearer s",
        some ⟨.undef, .obj ⟨.str "down", .undef, .str "lots"⟩, .undef, .undef, .undef,
          .undef, none⟩⟩ "s"
      ⟨.undef, .obj ⟨.str "down", .undef, .str "lots"⟩, .undef, .undef, .undef, .undef, none⟩
      rfl (by decide) rfl rfl).2.1
      ⟨.str "down", .undef, .str "lots"⟩ rfl rfl (by decide) rfl
  · exact (spec_C9_amended
      ⟨false, some "Bearer s",
        some ⟨.undef, .undef, .str "up", .str "lots", .undef, .undef, none⟩⟩ "s"
      ⟨.undef, .undef, .str "up", .str "lots", .undef, .undef, none⟩
      rfl (by decide) rfl rfl).2.2.1 rfl rfl (by decide) (by decide) rfl
  · exact (spec_C9_amended
      ⟨false, some "Bearer s",
        some ⟨.undef, .undef, .str "up", .num (.fin ⟨15, 1⟩), .jnull, .undef, none⟩⟩ "s"
      ⟨.undef, .undef, .str "up", .num (.fin ⟨15, 1⟩), .jnull, .undef, none⟩
      rfl (by decide) rfl rfl).2.2.2.1 rfl rfl (by decide) (by decide) rfl rfl
  · exact ((spec_C9_amended ⟨false, some "Bearer s", some
        ⟨.undef, .undef, .str "up", .num (.fin ⟨15, 1⟩), .undef, .undef, none⟩⟩ "s"
      ⟨.undef, .undef, .str "up", .num (.fin ⟨15, 1⟩), .undef, .undef, none⟩
      rfl (by decide) rfl rfl).2.2.2.2.2.1 (.num .inf)).mpr
      (Or.inr (Or.inr ⟨.inf, rfl, rfl⟩))
  · exact ((spec_C9_amended ⟨false, some "Bearer s", some
        ⟨.undef, .undef, .str "up", .num (.fin ⟨15, 1⟩), .undef, .undef, none⟩⟩ "s"
      ⟨.undef, .undef, .str "up", .num (.fin ⟨15, 1⟩), .undef, .undef, none⟩
      rfl (by decide) rfl rfl).2.2.2.2.2.2.1 (.num .inf)).mpr ⟨.inf, rfl, rfl⟩


/-- A digit or dot character is not JS whitespace. -/
theorem digitDot_not_ws (c : Char) (hc : (c.isDigit || c = '.') = true) :
    jsWhitespace c = false := by
  rcases Bool.or_eq_true_iff.mp hc with h | h
  · simp only [Char.isDigit, Bool.and_eq_true, decide_eq_true_eq, ge_iff_le] at h
    obtain ⟨h1, h2⟩ := h
    have hge : 48 ≤ c.toNat := by
      simpa [Char.toNat] using UInt32.le_toNat_of_le (by norm_num) h1
    have hle : c.toNat ≤ 57 := by
      simpa [Char.toNat] using UInt32.toNat_le_of_le (by norm_num) h2
    simp only [jsWhitespace, Bool.or_eq_false_iff, Bool.and_eq_false_iff,
      decide_eq_false_iff_not]
    omega
  · rw [decide_eq_true_eq] at h
    subst h
    decide

/-- parseFloat of a token of digits and dots is never negative (there
is no sign character to consume). -/
theorem jsParseFloat_nonneg (u : List Char)
    (hu : ∀ c ∈ u, (c.isDigit || c = '.') = true) :
    adjNonneg (some (jsParseFloat u)) = true := by
  cases u with
  | nil => rfl
  | cons c0 rest =>
    have hc0 := hu c0 (List.mem_cons_self c0 rest)
    have hw : jsWhitespace c0 = false := digitDot_not_ws c0 hc0
    have hm : c0 ≠ '-' := by
      intro h
      rw [h] at hc0
      exact absurd hc0 (by decide)
    have hp2 : c0 ≠ '+' := by
      intro h
      rw [h] at hc0
      exact absurd hc0 (by decide)
    have hmb : decide (c0 = '-') = false := decide_eq_false_iff_not.mpr hm
    have hpb : decide (c0 = '+') = false := decide_eq_false_iff_not.mpr hp2
    unfold jsParseFloat
    simp only [List.dropWhile_cons, hw, Bool.false_eq_true, if_false, List.head?_cons,
      Option.some.injEq, hmb, hpb, Bool.or_false]
    split
    · rfl
    · simp only [adjNonneg, Dec.isNonneg, decide_eq_true_eq]
      positivity

/-- A successful up-or-down match yields one of the two direction
words and a token drawn from the digit-or-dot class. -/
theorem matchUpDownNum_spec (s : List Char) (dt : String × List Char)
    (h : matchUpDownNum s = some dt) :
    (dt.1 = "up" ∨ dt.1 = "down") ∧ (∀ c ∈ dt.2, (c.isDigit || c = '.') = true) := by
  unfold matchUpDownNum at h
  have attempt_spec : ∀ (w : List Char) (name : String) (x : String × List Char),
      (if List.isPrefixOf w s then
        let r := s.drop w.length
        let ws := r.takeWhile jsWhitespace
        if ws.isEmpty then none
        else
          let r2 := r.drop ws.length
          let tok := r2.takeWhile (fun c => c.isDigit || c = '.')
          if tok.isEmpty then none else some (name, tok)
      else none) = some x →
      x.1 = name ∧ (∀ c ∈ x.2, (c.isDigit || c = '.') = true) := by
    intro w name x hx
    split at hx
    · simp only at hx
      split at hx
      · exact absurd hx (by simp)
      · split at hx
        · exact absurd hx (by simp)
        · rw [Option.some.injEq] at hx
          subst hx
          refine ⟨rfl, fun c hc => ?_⟩
          have h3 := List.mem_takeWhile_imp hc
          exact h3
    · exact absurd hx (by simp)
  simp only at h
  split at h
  · rename_i x hx
    rw [Option.some.injEq] at h
    subst h
    obtain ⟨h1, h2⟩ := attempt_spec ['u', 'p'] "up" x hx
    exact ⟨Or.inl h1, h2⟩
  · obtain ⟨h1, h2⟩ := attempt_spec ['d', 'o', 'w', 'n'] "down" dt h
    exact ⟨Or.inr h1, h2⟩

/-- Claim C8, counterexample: the free-text fallback of the parser
produces a no-change fuel slot whose adjustment is null, violating the
FuelSlot invariant that a no-change direction carries adjustment 0. -/
theorem spec_C8_cex :
    (parseRedditPost ⟨"no change".data, []⟩).gas =
      some ⟨some "no-change", none, none⟩ ∧
    slotInvariant ⟨some "no-change", none, none⟩ = false := by decide

/-- Claim C8, amended: every result of parseAdjustment, and hence
every slot produced by the table strategy, satisfies the FuelSlot
invariant (adjustment never negative; no-change implies adjustment 0);
the free-text fallback and the webhook path can instead produce
no-change slots with a null adjustment. -/
theorem spec_C8_amended (s : List Char) (row : TableRow) :
    adjInvariant (parseAdjustment s) = true ∧ slotInvariant (slotOf row) = true := by
  have key : ∀ t : List Char, adjInvariant (parseAdjustment t) = true := by
    intro t
    simp only [parseAdjustment]
    split
    · rfl
    · split
      · rename_i dt hdt
        obtain ⟨hdir, htok⟩ := matchUpDownNum_spec _ dt hdt
        have hnn := jsParseFloat_nonneg dt.2 htok
        have hdirne : (some dt.1 = some "no-change") = False := by
          rcases hdir with h | h <;> simp [h]
        simp [adjInvariant, hnn, hdirne]
      · split
        · rfl
        · split
          · rfl
          · rfl
  exact ⟨key s, key row.adjRaw⟩

/-- Claim C3, counterexample: the phrase no underscore change matches
neither the space-nor-hyphen no-change pattern of the claim nor any
other claim branch, so the claim predicts a null result; the code,
whose pattern accepts any single separator character, returns
no-change with adjustment 0. -/
theorem spec_C3_cex :
    parseAdjustment "no_change".data = ⟨some "no-change", some (.fin ⟨0, 0⟩)⟩ ∧
    claimAdjustment "no_change".data = ⟨none, none⟩ := by decide

theorem isPrefixOf_append (x y u : List Char) :
    List.isPrefixOf (x ++ y) u = (List.isPrefixOf x u && List.isPrefixOf y (u.drop x.length)) := by
  induction x generalizing u with
  | nil => simp [List.isPrefixOf]
  | cons a x ih =>
    cases u with
    | nil => simp [List.isPrefixOf]
    | cons b u => simp [List.isPrefixOf, ih, Bool.and_assoc]

theorem noChangeHere_eq (u : List Char) :
    noChangeHere u =
      (List.isPrefixOf "nochange".data u ||
        (List.isPrefixOf "no".data u &&
          (match u.drop 2 with
            | c :: r => !isLineTerm c && List.isPrefixOf "change".data r
            | [] => false))) := by
  have h8 : List.isPrefixOf "nochange".data u =
      (List.isPrefixOf "no".data u && List.isPrefixOf "change".data (u.drop 2)) := by
    have hsplit : ("nochange".data : List Char) = "no".data ++ "change".data := rfl
    rw [hsplit, isPrefixOf_append]
    rfl
  rw [noChangeHere, h8, Bool.and_or_distrib_left]

theorem noChangeTest_eq_wild (t : List Char) : noChangeTest t = wildNoChange t := by
  induction t with
  | nil =>
    rw [noChangeTest, wildNoChange, noChangeHere_eq]
    rfl
  | cons c r ih =>
    rw [noChangeTest, wildNoChange, List.tails_cons, List.any_cons, noChangeHere_eq, ih,
      wildNoChange]

/-- Claim C3, amended: parseAdjustment behaves exactly as the claim
describes once the no-change pattern is read as the source implements
it: the word no, then any single non-line-terminator character or no
character at all, then the word change, anywhere in the lowercased
trimmed phrase.  No input makes it raise: it is a total function by
construction. -/
theorem spec_C3_amended (adj : List Char) :
    parseAdjustment adj = claimAdjustmentAmended adj := by
  simp only [parseAdjustment, claimAdjustmentAmended, noChangeTest_eq_wild]

/-- Claim C5: when the table strategy matches no rows, the free-text
fallback fills exactly one slot whose price is the second dollar
token when two or more were found, the only one when exactly one was
found, and null when none were; its adjustment is always null. -/
theorem spec_C5 (post : Post)
    (h : scanRows (post.title ++ ' ' :: post.selftext) = []) :
    ((parseRedditPost post).gas = some (freeTextSlot (post.title ++ ' ' :: post.selftext)) ∧
        (parseRedditPost post).diesel = none ∨
      (parseRedditPost post).diesel = some (freeTextSlot (post.title ++ ' ' :: post.selftext)) ∧
        (parseRedditPost post).gas = none) ∧
    (freeTextSlot (post.title ++ ' ' :: post.selftext)).adjustment = none ∧
    (freeTextSlot (post.title ++ ' ' :: post.selftext)).price =
      (match scanPrices (post.title ++ ' ' :: post.selftext) with
        | _ :: b :: _ => some b
        | [a] => some a
        | [] => none) := by
  refine ⟨?_, rfl, ?_⟩
  · simp only [parseRedditPost]
    rw [h]
    by_cases hd :
        containsSub "diesel".data (lowers (post.title ++ ' ' :: post.selftext)) = true
    · right
      constructor <;> simp [tableSlots, hd]
    · left
      constructor <;> simp [tableSlots, hd]
  · unfold freeTextSlot
    rfl

theorem spec_C5_witness :
    scanRows ("Gas".data ++ ' ' :: "Gas: $1.659/L to $1.719/L".data) = [] ∧
    (freeTextSlot ("Gas".data ++ ' ' :: "Gas: $1.659/L to $1.719/L".data)).adjustment = none :=
  ⟨by decide,
    (spec_C5 ⟨"Gas".data, "Gas: $1.659/L to $1.719/L".data⟩ (by decide)).2.1⟩

theorem intercalate_space (ls : List (List Char)) :
    List.intercalate [' '] ls = joinSpace ls := by
  induction ls with
  | nil => simp [List.intercalate, joinSpace]
  | cons l t ih =>
    cases t with
    | nil => simp [List.intercalate, joinSpace]
    | cons l2 t2 =>
      have hstep : List.intercalate [' '] (l :: l2 :: t2) =
          l ++ ' ' :: List.intercalate [' '] (l2 :: t2) := by
        simp [List.intercalate, List.intersperse_cons_cons]
      rw [hstep, ih]
      rfl

/-- Claim C7: notes extraction drops every line that starts (after
trimming) with a pipe or colon-dash, joins the remaining lines with
single spaces, trims, truncates to at most 500 characters, and turns
an empty remainder into null (never an empty string); a remainder
longer than 500 characters is cut to exactly 500. -/
theorem spec_C7 (body : List Char) :
    extractNotes body = claimNotes body ∧
    extractNotes body ≠ some [] ∧
    (∀ s, extractNotes body = some s → s.length ≤ 500) ∧
    ((∀ l ∈ splitNl body, startsTablePipe l = true ∨ startsTableSep l = true) →
      extractNotes body = none) ∧
    (500 <
        (jsTrim (List.intercalate [' ']
          ((splitNl body).filter fun l => !startsTablePipe l && !startsTableSep l))).length →
      (extractNotes body).map List.length = some 500) := by
  have hlam : (fun l => !startsTablePipe l && !startsTableSep l) =
      (fun l => !(startsTablePipe l || startsTableSep l)) :=
    funext fun l => (Bool.not_or _ _).symm
  have hgen : ∀ u : List Char,
      (if 0 < u.length then some (u.take 500) else none) =
        (if u = [] then none else some (u.take 500)) := by
    intro u
    rcases eq_or_ne u [] with hz | hz
    · simp [hz]
    · rw [if_pos (List.length_pos.mpr hz), if_neg hz]
  refine ⟨?_, ?_, ?_, ?_, ?_⟩
  · simp only [extractNotes, claimNotes]
    rw [intercalate_space, hlam]
    exact hgen _
  · simp only [extractNotes]
    split
    · rename_i hlen
      intro hc
      rw [Option.some.injEq, List.take_eq_nil_iff] at hc
      rcases hc with hc | hc
      · exact absurd hc (by norm_num)
      · rw [hc] at hlen
        exact absurd hlen (by norm_num)
    · exact Option.noConfusion
  · simp only [extractNotes]
    split
    · intro s hs
      rw [Option.some.injEq] at hs
      subst hs
      rw [List.length_take]
      omega
    · intro s hs
      exact absurd hs Option.noConfusion
  · intro hall
    simp only [extractNotes]
    have hfil : (splitNl body).filter (fun l => !startsTablePipe l && !startsTableSep l) = [] := by
      rw [List.filter_eq_nil_iff]
      intro l hl
      rcases hall l hl with h | h <;> simp [h]
    rw [hfil]
    rfl
  · intro hlong
    rw [intercalate_space] at hlong
    simp only [extractNotes]
    rw [intercalate_space]
    rw [if_pos (by omega)]
    rw [Option.map_some', List.length_take]
    congr 1
    omega

set_option maxRecDepth 4000 in
theorem spec_C7_witness :
    ((∀ l ∈ splitNl "|a|\n:-b".data, startsTablePipe l = true ∨ startsTableSep l = true) ∧
      extractNotes "|a|\n:-b".data = none) ∧
    (500 <
        (jsTrim (List.intercalate [' ']
          ((splitNl (List.replicate 501 'a')).filter
            fun l => !startsTablePipe l && !startsTableSep l))).length ∧
      (extractNotes (List.replicate 501 'a')).map List.length = some 500) := by
  refine ⟨⟨by decide, (spec_C7 "|a|\n:-b".data).2.2.2.1 (by decide)⟩, ?_, ?_⟩
  · decide
  · exact (spec_C7 (List.replicate 501 'a')).2.2.2.2 (by decide)

theorem matchFuelKw_mem (s : List Char) (tr : String × List Char)
    (h : matchFuelKw s = some tr) :
    tr.1 ∈ (["regular", "gas", "gasoline", "diesel"] : List String) := by
  unfold matchFuelKw at h
  split_ifs at h <;>
    (rw [Option.some.injEq] at h; subst h; simp)

theorem rowAfterPipe_ty (r : List Char) (rr : TableRow × List Char)
    (h : rowAfterPipe r = some rr) :
    rr.1.ty ∈ (["regular", "gas", "gasoline", "diesel"] : List String) := by
  simp only [rowAfterPipe] at h
  split at h
  · exact absurd h (by simp)
  · rename_i tyr hty
    split at h
    · split at h
      · exact absurd h (by simp)
      · split at h
        · exact absurd h (by simp)
        · split at h
          · rw [Option.some.injEq] at h
            subst h
            exact matchFuelKw_mem _ _ hty
          · exact absurd h (by simp)
    · exact absurd h (by simp)

theorem scanRowsF_ty (fuel : ℕ) :
    ∀ (s : List Char) (row : TableRow), row ∈ scanRowsF fuel s →
      row.ty ∈ (["regular", "gas", "gasoline", "diesel"] : List String) := by
  induction fuel with
  | zero =>
    intro s row hrow
    simp [scanRowsF] at hrow
  | succ fuel ih =>
    intro s row hrow
    cases s with
    | nil => simp [scanRowsF] at hrow
    | cons c r =>
      rw [scanRowsF] at hrow
      split at hrow
      · split at hrow
        · rename_i rr hrr
          rcases List.mem_cons.mp hrow with h | h
          · subst h
            exact rowAfterPipe_ty _ _ hrr
          · exact ih _ _ h
        · exact ih _ _ hrow
      · exact ih _ _ hrow

theorem tableSlots_go (rows : List TableRow) :
    ∀ (g d : Option FuelSlot),
      List.foldl
        (fun gd row =>
          if row.ty = "diesel" then (gd.1, some (slotOf row)) else (some (slotOf row), gd.2))
        (g, d) rows =
      ((match (rows.filter fun row => !(row.ty = "diesel")).getLast? with
        | some r => some (slotOf r)
        | none => g),
       (match (rows.filter fun row => decide (row.ty = "diesel")).getLast? with
        | some r => some (slotOf r)
        | none => d)) := by
  induction rows with
  | nil => intro g d; rfl
  | cons row t ih =>
    intro g d
    rw [List.foldl_cons]
    by_cases hd : row.ty = "diesel"
    · have hfg : List.filter (fun row => !decide (row.ty = "diesel")) (row :: t) =
          List.filter (fun row => !decide (row.ty = "diesel")) t := by
        simp [List.filter_cons, hd]
      have hfd : List.filter (fun row => decide (row.ty = "diesel")) (row :: t) =
          row :: List.filter (fun row => decide (row.ty = "diesel")) t := by
        simp [List.filter_cons, hd]
      rw [if_pos hd, ih, hfg, hfd, List.getLast?_cons]
      cases h2 : (t.filter fun row => decide (row.ty = "diesel")).getLast? <;> simp [h2]
    · have hfg : List.filter (fun row => !decide (row.ty = "diesel")) (row :: t) =
          row :: List.filter (fun row => !decide (row.ty = "diesel")) t := by
        simp [List.filter_cons, hd]
      have hfd : List.filter (fun row => decide (row.ty = "diesel")) (row :: t) =
          List.filter (fun row => decide (row.ty = "diesel")) t := by
        simp [List.filter_cons, hd]
      rw [if_neg hd, ih, hfg, hfd, List.getLast?_cons]
      cases h1 : (t.filter fun row => !decide (row.ty = "diesel")).getLast? <;> simp [h1]

/-- Claim C4: every matched table row carries one of the four fuel
keywords; rows naming diesel feed the diesel slot and the rest feed
the gas slot, the last matching row for a slot winning; a post whose
only matching rows name diesel leaves the gas slot null. -/
theorem spec_C4 (post : Post) :
    (∀ row ∈ scanRows (post.title ++ ' ' :: post.selftext),
        row.ty ∈ (["regular", "gas", "gasoline", "diesel"] : List String)) ∧
    (tableSlots (scanRows (post.title ++ ' ' :: post.selftext))).1 =
      ((scanRows (post.title ++ ' ' :: post.selftext)).filter
          fun row => !(row.ty = "diesel")).getLast?.map slotOf ∧
    (tableSlots (scanRows (post.title ++ ' ' :: post.selftext))).2 =
      ((scanRows (post.title ++ ' ' :: post.selftext)).filter
          fun row => row.ty = "diesel").getLast?.map slotOf ∧
    (scanRows (post.title ++ ' ' :: post.selftext) ≠ [] →
      (∀ row ∈ scanRows (post.title ++ ' ' :: post.selftext), row.ty = "diesel") →
      (parseRedditPost post).gas = none) := by
  have hpair : ∀ rows : List TableRow,
      tableSlots rows =
        ((rows.filter fun row => !(row.ty = "diesel")).getLast?.map slotOf,
         (rows.filter fun row => decide (row.ty = "diesel")).getLast?.map slotOf) := by
    intro rows
    have hgo := tableSlots_go rows none none
    rw [tableSlots, hgo]
    cases hg1 : (rows.filter fun row => !(row.ty = "diesel")).getLast? <;>
      cases hg2 : (rows.filter fun row => decide (row.ty = "diesel")).getLast? <;>
        simp [hg1, hg2]
  refine ⟨fun row hrow => scanRowsF_ty _ _ _ hrow, ?_, ?_, ?_⟩
  · rw [hpair]
  · rw [hpair]
  · intro hne hall
    have hfg : (scanRows (post.title ++ ' ' :: post.selftext)).filter
        (fun row => !(row.ty = "diesel")) = [] := by
      rw [List.filter_eq_nil_iff]
      intro row hrow
      simp [hall row hrow]
    have hfd : (scanRows (post.title ++ ' ' :: post.selftext)).filter
        (fun row => decide (row.ty = "diesel")) =
          scanRows (post.title ++ ' ' :: post.selftext) := by
      rw [List.filter_eq_self]
      intro row hrow
      simp [hall row hrow]
    have hg : (tableSlots (scanRows (post.title ++ ' ' :: post.selftext))).1 = none := by
      rw [hpair, hfg]
      rfl
    have hd2 : (tableSlots (scanRows (post.title ++ ' ' :: post.selftext))).2 ≠ none := by
      rw [hpair]
      simp only [hfd]
      cases hrs : scanRows (post.title ++ ' ' :: post.selftext) with
      | nil => exact absurd hrs hne
      | cons a t =>
        rw [List.getLast?_cons]
        simp
    simp only [parseRedditPost]
    rw [if_neg]
    · exact hg
    · intro hcon
      exact hd2 hcon.2

theorem spec_C4_witness :
    scanRows (([] : List Char) ++ ' ' :: "|Diesel| UP 1 |154.4|".data) ≠ [] ∧
    (parseRedditPost ⟨[], "|Diesel| UP 1 |154.4|".data⟩).gas = none :=
  ⟨by decide,
    (spec_C4 ⟨[], "|Diesel| UP 1 |154.4|".data⟩).2.2.2 (by decide) (by decide)⟩

theorem dropWhile_length_le (p : Char → Bool) (l : List Char) :
    (l.dropWhile p).length ≤ l.length := by
  induction l with
  | nil => simp
  | cons c r ih =>
    rw [List.dropWhile_cons]
    split
    · exact le_trans ih (by simp)
    · simp

theorem matchFuelKw_len (s : List Char) (tr : String × List Char)
    (h : matchFuelKw s = some tr) : tr.2.length ≤ s.length := by
  unfold matchFuelKw at h
  split_ifs at h <;>
    (rw [Option.some.injEq] at h; subst h; simp [List.length_drop])

theorem matchCell2_len (u : List Char) (cr : List Char × List Char)
    (h : matchCell2 u = some cr) : cr.2.length ≤ u.length := by
  unfold matchCell2 at h
  split at h
  · exact absurd h (by simp)
  · split at h
    · exact absurd h (by simp)
    · rw [Option.some.injEq] at h
      subst h
      simp [List.length_drop]

theorem rowAfterPipe_len (r : List Char) (rr : TableRow × List Char)
    (h : rowAfterPipe r = some rr) : rr.2.length ≤ r.length := by
  simp only [rowAfterPipe] at h
  split at h
  · exact absurd h (by simp)
  · rename_i tyr hty
    have h1 : tyr.2.length ≤ r.length :=
      le_trans (matchFuelKw_len _ _ hty) (dropWhile_length_le _ _)
    split at h
    · rename_i r4 hr4
      have h2 : r4.length < tyr.2.length := by
        have := dropWhile_length_le jsWhitespace tyr.2
        rw [hr4] at this
        simp at this
        omega
      split at h
      · exact absurd h (by simp)
      · rename_i cr hcr
        have h3 : cr.2.length ≤ r4.length := matchCell2_len _ _ hcr
        split at h
        · exact absurd h (by simp)
        · split at h
          · rename_i rest hrest
            rw [Option.some.injEq] at h
            subst h
            simp only
            have h5 := dropWhile_length_le jsWhitespace
              (List.drop (List.takeWhile (fun c => c.isDigit || c = '.')
                (List.dropWhile jsWhitespace cr.2)).length
                (List.dropWhile jsWhitespace cr.2))
            rw [hrest] at h5
            simp only [List.length_cons] at h5
            have h6 : (List.drop (List.takeWhile (fun c => c.isDigit || c = '.')
                (List.dropWhile jsWhitespace cr.2)).length
                (List.dropWhile jsWhitespace cr.2)).length ≤ cr.2.length := by
              have h7 := dropWhile_length_le jsWhitespace cr.2
              simp only [List.length_drop]
              omega
            omega
          · exact absurd h (by simp)
    · exact absurd h (by simp)

/-- The table-row scanner is insensitive to its fuel as soon as the
fuel exceeds the input length, so the chosen fuel of length plus one
reproduces the unbounded JS exec loop exactly. -/
theorem scanRowsF_fuel_stable (n : ℕ) :
    ∀ (fuel fuel' : ℕ) (s : List Char), s.length ≤ n →
      s.length < fuel → s.length < fuel' → scanRowsF fuel s = scanRowsF fuel' s := by
  induction n with
  | zero =>
    intro fuel fuel' s hn hf hf'
    have : s = [] := List.length_eq_zero.mp (Nat.le_zero.mp hn)
    subst this
    cases fuel with
    | zero => omega
    | succ f =>
      cases fuel' with
      | zero => omega
      | succ f' => rfl
  | succ n ih =>
    intro fuel fuel' s hn hf hf'
    cases s with
    | nil =>
      cases fuel with
      | zero => omega
      | succ f =>
        cases fuel' with
        | zero => omega
        | succ f' => rfl
    | cons c r =>
      cases fuel with
      | zero => omega
      | succ f =>
        cases fuel' with
        | zero => omega
        | succ f' =>
          rw [scanRowsF, scanRowsF]
          simp only [List.length_cons] at hn hf hf'
          split
          · split
            · rename_i rr hrr
              have hlen := rowAfterPipe_len _ _ hrr
              rw [ih f f' rr.2 (by omega) (by omega) (by omega)]
            · rw [ih f f' r (by omega) (by omega) (by omega)]
          · rw [ih f f' r (by omega) (by omega) (by omega)]

theorem scanRows_eq_of_fuel (fuel : ℕ) (s : List Char) (h : s.length < fuel) :
    scanRowsF fuel s = scanRows s :=
  scanRowsF_fuel_stable s.length fuel (s.length + 1) s le_rfl h (by omega)

theorem matchDollarAfter_len (r : List Char) (tr : List Char × List Char)
    (h : matchDollarAfter r = some tr) : tr.2.length ≤ r.length := by
  simp only [matchDollarAfter] at h
  split at h
  · exact absurd h (by simp)
  · split at h
    · rename_i r2 hr2
      split at h
      · exact absurd h (by simp)
      · rw [Option.some.injEq] at h
        subst h
        simp only
        have h1 : r2.length + 1 = (r.drop (r.takeWhile Char.isDigit).length).length := by
          rw [hr2]
          simp
        have h2 : (r.drop (r.takeWhile Char.isDigit).length).length ≤ r.length := by
          simp [List.length_drop]
        have h3 := List.length_drop (min (r2.takeWhile Char.isDigit).length 3) r2
        omega
    · exact absurd h (by simp)

/-- The dollar-amount scanner is likewise insensitive to its fuel once
the fuel exceeds the input length. -/
theorem scanPricesF_fuel_stable (n : ℕ) :
    ∀ (fuel fuel' : ℕ) (s : List Char), s.length ≤ n →
      s.length < fuel → s.length < fuel' → scanPricesF fuel s = scanPricesF fuel' s := by
  induction n with
  | zero =>
    intro fuel fuel' s hn hf hf'
    have : s = [] := List.length_eq_zero.mp (Nat.le_zero.mp hn)
    subst this
    cases fuel with
    | zero => omega
    | succ f =>
      cases fuel' with
      | zero => omega
      | succ f' => rfl
  | succ n ih =>
    intro fuel fuel' s hn hf hf'
    cases s with
    | nil =>
      cases fuel with
      | zero => omega
      | succ f =>
        cases fuel' with
        | zero => omega
        | succ f' => rfl
    | cons c r =>
      cases fuel with
      | zero => omega
      | succ f =>
        cases fuel' with
        | zero => omega
        | succ f' =>
          rw [scanPricesF, scanPricesF]
          simp only [List.length_cons] at hn hf hf'
          split
          · split
            · rename_i tr htr
              have hlen := matchDollarAfter_len _ _ htr
              rw [ih f f' tr.2 (by omega) (by omega) (by omega)]
            · rw [ih f f' r (by omega) (by omega) (by omega)]
          · rw [ih f f' r (by omega) (by omega) (by omega)]

theorem scanPrices_eq_of_fuel (fuel : ℕ) (s : List Char) (h : s.length < fuel) :
    scanPricesF fuel s = scanPrices s :=
  scanPricesF_fuel_stable s.length fuel (s.length + 1) s le_rfl h (by omega)
